import Mathlib

/-!
# Verification of the tinySynth voice core (`src/tinySynth/tinySynth.h`)

The repository ships a declaration-only header: the `tinySynthSound` predicate
bodies and the `Parameters` enumeration are given in full, while the
implementations of the ADSR envelope, oscillator, filter and the voice's
rendering loop live in files that are not part of the source tree.  Those
components are modelled here from the specification (sections 4.1-4.5, 6, 7),
with each such definition marked `Modelled from the spec:` in its doc comment.
All numeric state is `ℚ`, so every definition is executable.
-/

/-! ## Sound descriptor (directly from `tinySynth.h`, lines 58-64) -/

/-- From the source: `bool appliesToNote(const int midiNoteNumber) {return true;}`.
The sound accepts every MIDI note. -/
def tinySynthSound.appliesToNote (_midiNoteNumber : ℤ) : Bool := true

/-- From the source: `bool appliesToChannel(const int midiChannel) {return true;}`.
The sound accepts every MIDI channel. -/
def tinySynthSound.appliesToChannel (_midiChannel : ℤ) : Bool := true

/-! ## The `Parameters` enumeration (directly from `tinySynth.h`, lines 107-147).
C++ enumerators auto-increment from `osc1WaveParam = 0`; each definition below is
the successor of the previous one, mirroring the source order exactly. -/

def osc1WaveParam : ℕ := 0
def osc1OctaveParam : ℕ := osc1WaveParam + 1
def osc1LevelParam : ℕ := osc1OctaveParam + 1
def osc1LfoParam : ℕ := osc1LevelParam + 1
def osc1EnvParam : ℕ := osc1LfoParam + 1
def osc1OnParam : ℕ := osc1EnvParam + 1
def osc2WaveParam : ℕ := osc1OnParam + 1
def osc2OctaveParam : ℕ := osc2WaveParam + 1
def osc2LevelParam : ℕ := osc2OctaveParam + 1
def osc2LfoParam : ℕ := osc2LevelParam + 1
def osc2EnvParam : ℕ := osc2LfoParam + 1
def osc2OnParam : ℕ := osc2EnvParam + 1
def osc3WaveParam : ℕ := osc2OnParam + 1
def osc3OctaveParam : ℕ := osc3WaveParam + 1
def osc3LevelParam : ℕ := osc3OctaveParam + 1
def osc3LfoParam : ℕ := osc3LevelParam + 1
def osc3EnvParam : ℕ := osc3LfoParam + 1
def osc3OnParam : ℕ := osc3EnvParam + 1
def adsr1AttackParam : ℕ := osc3OnParam + 1
def adsr1DecayParam : ℕ := adsr1AttackParam + 1
def adsr1SustainParam : ℕ := adsr1DecayParam + 1
def adsr1ReleaseParam : ℕ := adsr1SustainParam + 1
def adsr2AttackParam : ℕ := adsr1ReleaseParam + 1
def adsr2DecayParam : ℕ := adsr2AttackParam + 1
def adsr2SustainParam : ℕ := adsr2DecayParam + 1
def adsr2ReleaseParam : ℕ := adsr2SustainParam + 1
def adsr3AttackParam : ℕ := adsr2ReleaseParam + 1
def adsr3DecayParam : ℕ := adsr3AttackParam + 1
def adsr3SustainParam : ℕ := adsr3DecayParam + 1
def adsr3ReleaseParam : ℕ := adsr3SustainParam + 1
def lfo1DestParam : ℕ := adsr3ReleaseParam + 1
def lfo1WaveParam : ℕ := lfo1DestParam + 1
def lfo1FreqParam : ℕ := lfo1WaveParam + 1
def lfo1DevParam : ℕ := lfo1FreqParam + 1
def lfo2DestParam : ℕ := lfo1DevParam + 1
def lfo2WaveParam : ℕ := lfo2DestParam + 1
def lfo2FreqParam : ℕ := lfo2WaveParam + 1
def lfo2DevParam : ℕ := lfo2FreqParam + 1
def filter1TypeParam : ℕ := lfo2DevParam + 1
def filter1CutoffParam : ℕ := filter1TypeParam + 1
def filter1ResonanceParam : ℕ := filter1CutoffParam + 1
def filter1EnvModDepthParam : ℕ := filter1ResonanceParam + 1
def filter1EnvParam : ℕ := filter1EnvModDepthParam + 1
def filter2TypeParam : ℕ := filter1EnvParam + 1
def filter2CutoffParam : ℕ := filter2TypeParam + 1
def filter2ResonanceParam : ℕ := filter2CutoffParam + 1
def filter2EnvModDepthParam : ℕ := filter2ResonanceParam + 1
def filter2EnvParam : ℕ := filter2EnvModDepthParam + 1
def delayTimeParam : ℕ := filter2EnvParam + 1
def delayFeedbackParam : ℕ := delayTimeParam + 1
def delayGainParam : ℕ := delayFeedbackParam + 1
def delayOnParam : ℕ := delayGainParam + 1
def noiseParam : ℕ := delayOnParam + 1
def driveParam : ℕ := noiseParam + 1
def outputGainParam : ℕ := driveParam + 1
def synthVoiceParam : ℕ := outputGainParam + 1
def filterSequenceParam : ℕ := synthVoiceParam + 1
def filter1LfoParam : ℕ := filterSequenceParam + 1
def filter2LfoParam : ℕ := filter1LfoParam + 1
def reverbDryWetParam : ℕ := filter2LfoParam + 1
def reverbSizeParam : ℕ := reverbDryWetParam + 1
def reverbDampParam : ℕ := reverbSizeParam + 1
def reverbOnParam : ℕ := reverbDampParam + 1
def osc1SemiToneParam : ℕ := reverbOnParam + 1
def osc2SemiToneParam : ℕ := osc1SemiToneParam + 1
def osc3SemiToneParam : ℕ := osc2SemiToneParam + 1
def totalNumParams : ℕ := osc3SemiToneParam + 1

/-! ## ADSR envelope.
`stk::ADSR` (members `envelope1..3` of `tinySynthVoice`) is declared in the
header but its implementation is not in src/.  Modelled from the spec §4.3. -/

/-- Modelled from the spec: envelope states
`Idle → Attack → Decay → Sustain → Release → Idle` (§4.3). -/
inductive Stage where
  | Idle
  | Attack
  | Decay
  | Sustain
  | Release
deriving DecidableEq, Repr

/-- Modelled from the spec: per-sample ADSR state — current stage, current output
level, per-stage ramp rates (level change per tick, derived from the configured
stage durations) and the sustain target level (§4.3, data model §3). -/
structure ADSR where
  stage : Stage
  level : ℚ
  attackRate : ℚ
  decayRate : ℚ
  sustainLevel : ℚ
  releaseRate : ℚ
deriving DecidableEq, Repr

/-- Modelled from the spec: `noteOn()` forces transition to Attack from any state
(retrigger); the ramp starts from the current level (§4.3). -/
def ADSR.noteOn (e : ADSR) : ADSR := { e with stage := Stage.Attack }

/-- Modelled from the spec: `noteOff()` forces transition to Release from
Attack/Decay/Sustain, ramping from the current level (§4.3). -/
def ADSR.noteOff (e : ADSR) : ADSR :=
  match e.stage with
  | Stage.Attack => { e with stage := Stage.Release }
  | Stage.Decay => { e with stage := Stage.Release }
  | Stage.Sustain => { e with stage := Stage.Release }
  | _ => e

/-- Modelled from the spec: `tick()` advances one sample; Attack ramps up and
moves to Decay when the level reaches 1.0, Decay ramps down and moves to Sustain
at the configured sustain level, Release ramps down and moves to Idle at 0.0
(§4.3). -/
def ADSR.tick (e : ADSR) : ADSR :=
  match e.stage with
  | Stage.Idle => e
  | Stage.Attack =>
      let l := e.level + e.attackRate
      if 1 ≤ l then { e with level := 1, stage := Stage.Decay }
      else { e with level := l }
  | Stage.Decay =>
      let l := e.level - e.decayRate
      if l ≤ e.sustainLevel then { e with level := e.sustainLevel, stage := Stage.Sustain }
      else { e with level := l }
  | Stage.Sustain => e
  | Stage.Release =>
      let l := e.level - e.releaseRate
      if l ≤ 0 then { e with level := 0, stage := Stage.Idle }
      else { e with level := l }

/-- Modelled from the spec: `isFinished()` is true once Idle is reached (§4.3). -/
def ADSR.isFinished (e : ADSR) : Bool := e.stage = Stage.Idle

/-- Iterate `tick` a number of times. -/
def ADSR.tickN (e : ADSR) : ℕ → ADSR
  | 0 => e
  | n + 1 => (e.tickN n).tick

/-- Modelled from the spec: a stage duration is converted to a per-tick ramp rate;
a zero (or negative) duration yields rate 1, which completes the whole unit ramp
in a single tick instead of dividing by the zero duration (§4.3 edge case policy,
§7). -/
def stageRate (time sampleRate : ℚ) : ℚ :=
  if time ≤ 0 ∨ sampleRate ≤ 0 then 1 else 1 / (time * sampleRate)

/-- Modelled from the spec: configure the attack duration (seconds at the given
sample rate) as a ramp rate (§4.3). -/
def ADSR.setAttackTime (e : ADSR) (time sampleRate : ℚ) : ADSR :=
  { e with attackRate := stageRate time sampleRate }

/-- Modelled from the spec: configure the decay duration as a ramp rate (§4.3). -/
def ADSR.setDecayTime (e : ADSR) (time sampleRate : ℚ) : ADSR :=
  { e with decayRate := stageRate time sampleRate }

/-- Modelled from the spec: configure the release duration as a ramp rate (§4.3). -/
def ADSR.setReleaseTime (e : ADSR) (time sampleRate : ℚ) : ADSR :=
  { e with releaseRate := stageRate time sampleRate }

/-- The envelope in its initial (Idle, level 0) state with the given rates. -/
def adsrInit (ra rd s rr : ℚ) : ADSR :=
  { stage := Stage.Idle, level := 0, attackRate := ra, decayRate := rd,
    sustainLevel := s, releaseRate := rr }

/-! ## Oscillator.
`tinySynthOscillator` (members `oscillator1..3`) is declared in the header but
`tinySynthOscillator.h` is not in src/.  Modelled from the spec §4.1. -/

/-- Modelled from the spec: one sample of the selected waveform as a function of
the running phase in `[0,1)`.  The enumeration is sine, saw, square, triangle,
noise-like (§4.1); the transcendental sine is represented by a piecewise-quadratic
rational stand-in (no claim depends on the pointwise values of a waveform).
An out-of-range selector has no waveform: the lookup returns `none`. -/
def waveTable (w : ℕ) (p : ℚ) : Option ℚ :=
  match w with
  | 0 => some (if p < 1 / 2 then 8 * p * (1 - 2 * p) else 8 * (p - 1 / 2) * (1 - 2 * p))
  | 1 => some (2 * p - 1)
  | 2 => some (if p < 1 / 2 then 1 else -1)
  | 3 => some (if p < 1 / 2 then 4 * p - 1 else 3 - 4 * p)
  | 4 => some (2 * Int.fract (137 * p) - 1)
  | _ => none

/-- Modelled from the spec: a malformed waveform index clamps to a default
waveform instead of signaling failure (§4.1, §7).  Selectors 0..4 are the valid
waveforms; anything else becomes the default selector 0. -/
def clampWaveform (w : ℤ) : ℕ :=
  if 0 ≤ w ∧ w ≤ 4 then w.toNat else 0

/-- Modelled from the spec: oscillator state — waveform selector, octave,
semitone offset, linear gain, effective frequency, host sample rate, running
phase accumulator and the per-oscillator on/off flag (§3, §4.1). -/
structure tinySynthOscillator where
  waveform : ℕ
  octave : ℤ
  semitone : ℤ
  gain : ℚ
  frequency : ℚ
  sampleRate : ℚ
  phase : ℚ
  isOn : Bool
deriving DecidableEq, Repr

/-- Modelled from the spec: advance the phase accumulator by
`frequency / sampleRate` and wrap it into `[0,1)` (§4.1); wrapping is taking
the fractional part. -/
def tinySynthOscillator.advance (o : tinySynthOscillator) : tinySynthOscillator :=
  { o with phase := Int.fract (o.phase + o.frequency / o.sampleRate) }

/-- Iterate `advance` a number of times (one call per produced sample). -/
def tinySynthOscillator.advanceN (o : tinySynthOscillator) : ℕ → tinySynthOscillator
  | 0 => o
  | n + 1 => (o.advanceN n).advance

/-- Modelled from the spec: the raw waveform sample at the current phase, with
the gain applied as a linear multiplier (§4.1).  The waveform selector stored in
the oscillator is always kept in range by `clampWaveform`, so the table lookup
is defaulted with 0 only formally. -/
def tinySynthOscillator.currentSample (o : tinySynthOscillator) : ℚ :=
  o.gain * (waveTable o.waveform o.phase).getD 0

/-- Modelled from the spec: `nextSample()` returns the current waveform sample
and advances the wrapped phase accumulator (§4.1). -/
def tinySynthOscillator.nextSample (o : tinySynthOscillator) : ℚ × tinySynthOscillator :=
  (o.currentSample, o.advance)

/-- Modelled from the spec: equal-tempered semitone step, the twelfth root of
two approximated as a fixed rational (frequencies are rational in this model). -/
def semitoneStep : ℚ := 1059463 / 1000000

/-- Modelled from the spec: base frequency computed from the MIDI note number
(A4 = note 69 = 440 Hz, equal temperament via `semitoneStep`). -/
def midiToFreq (midiNoteNumber : ℤ) : ℚ :=
  440 * semitoneStep ^ (midiNoteNumber - 69)

/-- Modelled from the spec: an oscillator's effective frequency is the base note
frequency × 2^octave × step^semitone (§4.1). -/
def effectiveFrequency (base : ℚ) (octave semitone : ℤ) : ℚ :=
  base * 2 ^ octave * semitoneStep ^ semitone

/-- Modelled from the spec: on note start the oscillator's phase is reset and its
frequency recomputed from the new base frequency, applying the oscillator's own
octave and semitone offsets; an oscillator whose on/off flag is cleared gets
frequency 0 (§4.5 `startNote`). -/
def resetOscillator (o : tinySynthOscillator) (base : ℚ) : tinySynthOscillator :=
  { o with
    phase := 0
    frequency :=
      if o.isOn then effectiveFrequency base o.octave o.semitone else 0 }

/-! ## LFO.
The `LFO` class (members `lfo0..2`) is declared in the header but
`tinySynthLFO.h` is not in src/.  Modelled from the spec §4.2. -/

/-- Modelled from the spec: LFO state — waveform, frequency, modulation depth,
destination selector (0 = pitch, 1 = amplitude), sample rate and running phase;
phase mechanics identical to the oscillator (§4.2). -/
structure LFO where
  waveform : ℕ
  frequency : ℚ
  depth : ℚ
  dest : ℕ
  sampleRate : ℚ
  phase : ℚ
deriving DecidableEq, Repr

/-- Modelled from the spec: the LFO's current modulation value, the waveform
sample scaled by the depth (§4.2). -/
def LFO.value (l : LFO) : ℚ :=
  l.depth * (waveTable l.waveform l.phase).getD 0

/-- Modelled from the spec: advance the LFO phase, wrapped into `[0,1)` (§4.2). -/
def LFO.advance (l : LFO) : LFO :=
  { l with phase := Int.fract (l.phase + l.frequency / l.sampleRate) }

/-! ## Filter.
`tinySynthFilter` (members `hpeq1Filter`, `hpeq2Filter`) is declared in the
header but `tinySynthFilter.h` is not in src/.  Modelled from the spec §4.4, §7. -/

/-- Modelled from the spec: the cutoff is clamped to a stable range, below
Nyquist and above a minimum (§4.4); the range used here is `[20, 20000]` Hz. -/
def clampCutoff (c : ℚ) : ℚ := min (max c 20) 20000

/-- Modelled from the spec: the resonance (feedback) is clamped to keep the
filter stable — the feedback coefficient never reaches 1 (§4.4, §7); the range
used here is `[0, 99/100]`. -/
def clampResonance (r : ℚ) : ℚ := min (max r 0) (99 / 100)

/-- Modelled from the spec: recursive filter state — configured cutoff and
resonance plus one internal delay tap that persists across calls (§4.4). -/
structure tinySynthFilter where
  cutoff : ℚ
  resonance : ℚ
  state : ℚ
deriving DecidableEq, Repr

/-- Modelled from the spec: `setParams` stores cutoff and resonance, clamping
both to the stable range before they can reach the recursive stage (§4.4, §7). -/
def tinySynthFilter.setParams (f : tinySynthFilter) (c r : ℚ) : tinySynthFilter :=
  { f with cutoff := clampCutoff c, resonance := clampResonance r }

/-- Modelled from the spec: `process(sample)` runs one step of the recursive
(feedback) stage: the input is scaled by a normalized cutoff gain in `(0, 1]`
and the delay tap is fed back with the clamped resonance coefficient; both
inputs are clamped before they reach the recursion (§4.4, §7 prevention). -/
def tinySynthFilter.process (f : tinySynthFilter) (x : ℚ) : ℚ × tinySynthFilter :=
  let g := clampCutoff f.cutoff / 20000
  let fb := clampResonance f.resonance
  let y := g * x + fb * f.state
  (y, { f with state := y })

/-- The filter state after feeding it the first `n` values of the input
sequence `xs` through `process`. -/
def tinySynthFilter.processN (f : tinySynthFilter) (xs : ℕ → ℚ) : ℕ → tinySynthFilter
  | 0 => f
  | n + 1 => ((f.processN xs n).process (xs n)).2

/-! ## Voice.
`tinySynthVoice` is declared in the header (lines 81-168); the bodies of
`startNote`, `stopNote`, `renderNextBlock` and `setOscillatorParams` live in
`tinySynth.cpp`, which is not in src/.  Modelled from the spec §4.5, §6, §7. -/

/-- Modelled from the spec: deterministic pseudo-random generator driving the
noise contribution (a linear congruential step; the spec only asks for a noise
source scaled by the `noise` parameter, §4.5 step 3). -/
def noiseStep (s : ℕ) : ℕ := (1103515245 * s + 12345) % 2 ^ 31

/-- Modelled from the spec: map the noise generator state to a sample in
`[-1, 1)`. -/
def noiseValue (s : ℕ) : ℚ := 2 * ((s % 2 ^ 31 : ℕ) : ℚ) / 2 ^ 31 - 1

/-- Modelled from the spec: `drive` is a soft nonlinearity (gain into
saturation, §4.5 step 5); modelled as the bounded rational shaper
`(1 + d)·x / (1 + d·|x|)`. -/
def applyDrive (d x : ℚ) : ℚ := (1 + d) * x / (1 + d * |x|)

/-- Modelled from the spec: the `filterSequence` parameter selects the routing
topology — filter1-then-filter2, the reverse, or parallel; unspecified or
unknown values fall back to serial filter1→filter2 (§4.5 step 4). -/
def routeFilters (sel : ℚ) (f1 f2 : tinySynthFilter) (x : ℚ) :
    ℚ × tinySynthFilter × tinySynthFilter :=
  if sel = 1 then
    let r2 := f2.process x
    let r1 := f1.process r2.1
    (r1.1, r1.2, r2.2)
  else if sel = 2 then
    let r1 := f1.process x
    let r2 := f2.process x
    (r1.1 + r2.1, r1.2, r2.2)
  else
    let r1 := f1.process x
    let r2 := f2.process r1.1
    (r2.1, r1.2, r2.2)

/-- The voice state, mirroring the private members declared in `tinySynth.h`
lines 155-166: the parameter array reference, three oscillators, three ADSR
envelopes, two filters, the current fundamental frequency, the velocity-derived
key level, the LFOs, and the noise generator state. -/
structure tinySynthVoice where
  localParameters : ℕ → ℚ
  oscillator1 : tinySynthOscillator
  oscillator2 : tinySynthOscillator
  oscillator3 : tinySynthOscillator
  envelope1 : ADSR
  envelope2 : ADSR
  envelope3 : ADSR
  hpeq1Filter : tinySynthFilter
  hpeq2Filter : tinySynthFilter
  freq : ℚ
  keyLevel : ℚ
  lfo0 : LFO
  lfo1 : LFO
  lfo2 : LFO
  noiseSeed : ℕ

/-- Modelled from the spec: an envelope forced to Idle with its output level
zeroed, as used by the hard stop (§4.5 `stopNote`). -/
def idleADSR (e : ADSR) : ADSR := { e with stage := Stage.Idle, level := 0 }

/-- Modelled from the spec: `startNote` computes the base frequency from the
MIDI note number, resets all three oscillators' phase and frequency (applying
each oscillator's own octave/semitone/on-off flag), triggers `noteOn()` on all
three envelopes, and records the velocity as `keyLevel` (§4.5). -/
def tinySynthVoice.startNote (v : tinySynthVoice) (midiNoteNumber : ℤ)
    (velocity : ℚ) (_currentPitchWheelPosition : ℤ) : tinySynthVoice :=
  let f := midiToFreq midiNoteNumber
  { v with
    freq := f
    keyLevel := velocity
    oscillator1 := resetOscillator v.oscillator1 f
    oscillator2 := resetOscillator v.oscillator2 f
    oscillator3 := resetOscillator v.oscillator3 f
    envelope1 := v.envelope1.noteOn
    envelope2 := v.envelope2.noteOn
    envelope3 := v.envelope3.noteOn }

/-- Modelled from the spec: `stopNote(allowTailOff)` — with `allowTailOff`
true it triggers `noteOff()` on the envelopes and lets Release play out; with
`allowTailOff` false it forces immediate silence: all three envelopes jump to
Idle and the voice's output is zeroed (§4.5, cancellation primitive §5). -/
def tinySynthVoice.stopNote (v : tinySynthVoice) (allowTailOff : Bool) : tinySynthVoice :=
  if allowTailOff then
    { v with
      envelope1 := v.envelope1.noteOff
      envelope2 := v.envelope2.noteOff
      envelope3 := v.envelope3.noteOff }
  else
    { v with
      envelope1 := idleADSR v.envelope1
      envelope2 := idleADSR v.envelope2
      envelope3 := idleADSR v.envelope3
      keyLevel := 0 }

/-- Modelled from the spec: `setOscillatorParams` sets the gain, waveform,
octave and semitone for the three oscillators; a malformed waveform index is
clamped to the default waveform rather than signaling failure (§4.1, §7). -/
def tinySynthVoice.setOscillatorParams (v : tinySynthVoice)
    (newGain1 newGain2 newGain3 : ℚ)
    (newWaveform1 newWaveform2 newWaveform3 : ℤ)
    (newOctave1 newOctave2 newOctave3 : ℤ)
    (newSemiTone1 newSemiTone2 newSemiTone3 : ℤ) : tinySynthVoice :=
  { v with
    oscillator1 := { v.oscillator1 with
      gain := newGain1, waveform := clampWaveform newWaveform1,
      octave := newOctave1, semitone := newSemiTone1 }
    oscillator2 := { v.oscillator2 with
      gain := newGain2, waveform := clampWaveform newWaveform2,
      octave := newOctave2, semitone := newSemiTone2 }
    oscillator3 := { v.oscillator3 with
      gain := newGain3, waveform := clampWaveform newWaveform3,
      octave := newOctave3, semitone := newSemiTone3 } }

/-- Modelled from the spec: one oscillator/envelope pair's contribution — only
a pair whose on flag is set contributes; the oscillator sample is multiplied by
the pair's envelope level, the amplitude-LFO factor and the oscillator's gain
(§4.5 step 2). -/
def oscPairContribution (o : tinySynthOscillator) (env : ADSR) (ampMod : ℚ) : ℚ :=
  if o.isOn then o.currentSample * env.level * ampMod else 0

/-- Modelled from the spec: advance an oscillator whose phase increment is
perturbed by the pitch-LFO factor (vibrato applied as a multiplicative offset on
the frequency, §4.2, §4.5 step 2). -/
def advanceModulated (o : tinySynthOscillator) (pitchMod : ℚ) : tinySynthOscillator :=
  { o with phase := Int.fract (o.phase + o.frequency * pitchMod / o.sampleRate) }

/-- Modelled from the spec: render one sample of the voice (the body of the
per-sample loop of `renderNextBlock`, §4.5): read the LFO outputs, accumulate
the on-flagged oscillator/envelope pairs, add the scaled noise contribution,
route through the configured filter sequence, apply drive and output gain.  A
voice whose three envelopes are all Idle is inactive and contributes silence
(§4.5 activity, §7 degrade-to-silence).  Returns the updated voice and the
sample it adds to the buffer. -/
def tinySynthVoice.stepVoice (v : tinySynthVoice) : tinySynthVoice × ℚ :=
  if v.envelope1.isFinished && v.envelope2.isFinished && v.envelope3.isFinished then
    (v, 0)
  else
    let l1 := v.lfo1.value
    let l2 := v.lfo2.value
    let pitchMod := 1 + (if v.lfo1.dest = 0 then l1 else 0) + (if v.lfo2.dest = 0 then l2 else 0)
    let ampMod := 1 + (if v.lfo1.dest = 1 then l1 else 0) + (if v.lfo2.dest = 1 then l2 else 0)
    let e1 := v.envelope1.tick
    let e2 := v.envelope2.tick
    let e3 := v.envelope3.tick
    let s1 := oscPairContribution v.oscillator1 e1 ampMod
    let s2 := oscPairContribution v.oscillator2 e2 ampMod
    let s3 := oscPairContribution v.oscillator3 e3 ampMod
    let seed := noiseStep v.noiseSeed
    let mixed := s1 + s2 + s3 + v.localParameters noiseParam * noiseValue seed
    let routed := routeFilters (v.localParameters filterSequenceParam)
      v.hpeq1Filter v.hpeq2Filter mixed
    let out := v.localParameters outputGainParam *
      applyDrive (v.localParameters driveParam) routed.1 * v.keyLevel
    ({ v with
        oscillator1 := advanceModulated v.oscillator1 pitchMod
        oscillator2 := advanceModulated v.oscillator2 pitchMod
        oscillator3 := advanceModulated v.oscillator3 pitchMod
        envelope1 := e1
        envelope2 := e2
        envelope3 := e3
        hpeq1Filter := routed.2.1
        hpeq2Filter := routed.2.2
        lfo1 := v.lfo1.advance
        lfo2 := v.lfo2.advance
        noiseSeed := seed },
      out)

/-- The voice state after rendering `n` samples. -/
def tinySynthVoice.voiceAfter (v : tinySynthVoice) : ℕ → tinySynthVoice
  | 0 => v
  | n + 1 => ((v.voiceAfter n).stepVoice).1

/-- The sample the voice produces at step `n` of a render (0-based). -/
def tinySynthVoice.sampleAt (v : tinySynthVoice) (n : ℕ) : ℚ :=
  ((v.voiceAfter n).stepVoice).2

/-- Modelled from the spec: `renderNextBlock(outputBuffer, startSample,
numSamples)` runs the per-sample loop over `[startSample, startSample +
numSamples)` and mixes (adds, not overwrites) each produced sample into the
destination buffer at the corresponding position, on every audio channel
(§4.5 step 6, §6).  The buffer is a function from channel and position to the
stored sample. -/
def tinySynthVoice.renderNextBlock (v : tinySynthVoice) (outputBuffer : ℕ → ℕ → ℚ)
    (startSample : ℕ) : ℕ → tinySynthVoice × (ℕ → ℕ → ℚ)
  | 0 => (v, outputBuffer)
  | n + 1 =>
    let r := v.stepVoice
    tinySynthVoice.renderNextBlock r.1
      (fun ch i => if i = startSample then outputBuffer ch i + r.2 else outputBuffer ch i)
      (startSample + 1) n

/-! ## Helper lemmas -/

/-- A clamped waveform selector is one of the five valid waveforms. -/
theorem clampWaveform_le (w : ℤ) : clampWaveform w ≤ 4 := by
  unfold clampWaveform
  split
  · omega
  · omega

/-- Every in-range waveform selector has a waveform in the table. -/
theorem waveTable_isSome (w : ℕ) (h : w ≤ 4) (p : ℚ) : (waveTable w p).isSome = true := by
  interval_cases w <;> simp [waveTable]

/-! ## Claims -/

/-- C9: `tinySynthSound.appliesToNote` returns true for every MIDI note and
`tinySynthSound.appliesToChannel` returns true for every MIDI channel: the
sound descriptor never filters out any note event. -/
theorem C9_sound_accepts_all (midiNoteNumber midiChannel : ℤ) :
    tinySynthSound.appliesToNote midiNoteNumber = true ∧
    tinySynthSound.appliesToChannel midiChannel = true :=
  ⟨rfl, rfl⟩

/-- C10: the `Parameters` enumeration assigns consecutive indices starting at
`osc1WaveParam = 0` and ending at `osc3SemiToneParam = 65`, with
`totalNumParams = 66`; every valid parameter index therefore lies in
`[0, 66)`. -/
theorem C10_parameter_indices :
    osc1WaveParam = 0 ∧ osc1OctaveParam = 1 ∧ osc1LevelParam = 2 ∧
    osc1LfoParam = 3 ∧ osc1EnvParam = 4 ∧ osc1OnParam = 5 ∧
    osc2WaveParam = 6 ∧ osc2OctaveParam = 7 ∧ osc2LevelParam = 8 ∧
    osc2LfoParam = 9 ∧ osc2EnvParam = 10 ∧ osc2OnParam = 11 ∧
    osc3WaveParam = 12 ∧ osc3OctaveParam = 13 ∧ osc3LevelParam = 14 ∧
    osc3LfoParam = 15 ∧ osc3EnvParam = 16 ∧ osc3OnParam = 17 ∧
    adsr1AttackParam = 18 ∧ adsr1DecayParam = 19 ∧ adsr1SustainParam = 20 ∧
    adsr1ReleaseParam = 21 ∧ adsr2AttackParam = 22 ∧ adsr2DecayParam = 23 ∧
    adsr2SustainParam = 24 ∧ adsr2ReleaseParam = 25 ∧ adsr3AttackParam = 26 ∧
    adsr3DecayParam = 27 ∧ adsr3SustainParam = 28 ∧ adsr3ReleaseParam = 29 ∧
    lfo1DestParam = 30 ∧ lfo1WaveParam = 31 ∧ lfo1FreqParam = 32 ∧
    lfo1DevParam = 33 ∧ lfo2DestParam = 34 ∧ lfo2WaveParam = 35 ∧
    lfo2FreqParam = 36 ∧ lfo2DevParam = 37 ∧ filter1TypeParam = 38 ∧
    filter1CutoffParam = 39 ∧ filter1ResonanceParam = 40 ∧
    filter1EnvModDepthParam = 41 ∧ filter1EnvParam = 42 ∧ filter2TypeParam = 43 ∧
    filter2CutoffParam = 44 ∧ filter2ResonanceParam = 45 ∧
    filter2EnvModDepthParam = 46 ∧ filter2EnvParam = 47 ∧ delayTimeParam = 48 ∧
    delayFeedbackParam = 49 ∧ delayGainParam = 50 ∧ delayOnParam = 51 ∧
    noiseParam = 52 ∧ driveParam = 53 ∧ outputGainParam = 54 ∧
    synthVoiceParam = 55 ∧ filterSequenceParam = 56 ∧ filter1LfoParam = 57 ∧
    filter2LfoParam = 58 ∧ reverbDryWetParam = 59 ∧ reverbSizeParam = 60 ∧
    reverbDampParam = 61 ∧ reverbOnParam = 62 ∧ osc1SemiToneParam = 63 ∧
    osc2SemiToneParam = 64 ∧ osc3SemiToneParam = 65 ∧ totalNumParams = 66 := by
  simp [osc1WaveParam, osc1OctaveParam, osc1LevelParam, osc1LfoParam, osc1EnvParam,
    osc1OnParam, osc2WaveParam, osc2OctaveParam, osc2LevelParam, osc2LfoParam, osc2EnvParam,
    osc2OnParam, osc3WaveParam, osc3OctaveParam, osc3LevelParam, osc3LfoParam, osc3EnvParam,
    osc3OnParam, adsr1AttackParam, adsr1DecayParam, adsr1SustainParam, adsr1ReleaseParam,
    adsr2AttackParam, adsr2DecayParam, adsr2SustainParam, adsr2ReleaseParam, adsr3AttackParam,
    adsr3DecayParam, adsr3SustainParam, adsr3ReleaseParam, lfo1DestParam, lfo1WaveParam,
    lfo1FreqParam, lfo1DevParam, lfo2DestParam, lfo2WaveParam, lfo2FreqParam, lfo2DevParam,
    filter1TypeParam, filter1CutoffParam, filter1ResonanceParam, filter1EnvModDepthParam,
    filter1EnvParam, filter2TypeParam, filter2CutoffParam, filter2ResonanceParam,
    filter2EnvModDepthParam, filter2EnvParam, delayTimeParam, delayFeedbackParam,
    delayGainParam, delayOnParam, noiseParam, driveParam, outputGainParam, synthVoiceParam,
    filterSequenceParam, filter1LfoParam, filter2LfoParam, reverbDryWetParam, reverbSizeParam,
    reverbDampParam, reverbOnParam, osc1SemiToneParam, osc2SemiToneParam, osc3SemiToneParam,
    totalNumParams]

/-- C8: for every waveform index passed through `setOscillatorParams`,
including out-of-range values, each oscillator's stored waveform selector is
clamped into the valid range `0..4` and the waveform table lookup still yields
a sample — no failure is ever signalled. -/
theorem C8_waveform_index_clamped (v : tinySynthVoice)
    (g1 g2 g3 : ℚ) (w1 w2 w3 o1 o2 o3 t1 t2 t3 : ℤ) (p : ℚ) :
    ((v.setOscillatorParams g1 g2 g3 w1 w2 w3 o1 o2 o3 t1 t2 t3).oscillator1.waveform ≤ 4 ∧
      (waveTable (v.setOscillatorParams g1 g2 g3 w1 w2 w3 o1 o2 o3 t1 t2 t3).oscillator1.waveform
        p).isSome = true) ∧
    ((v.setOscillatorParams g1 g2 g3 w1 w2 w3 o1 o2 o3 t1 t2 t3).oscillator2.waveform ≤ 4 ∧
      (waveTable (v.setOscillatorParams g1 g2 g3 w1 w2 w3 o1 o2 o3 t1 t2 t3).oscillator2.waveform
        p).isSome = true) ∧
    ((v.setOscillatorParams g1 g2 g3 w1 w2 w3 o1 o2 o3 t1 t2 t3).oscillator3.waveform ≤ 4 ∧
      (waveTable (v.setOscillatorParams g1 g2 g3 w1 w2 w3 o1 o2 o3 t1 t2 t3).oscillator3.waveform
        p).isSome = true) :=
  ⟨⟨clampWaveform_le w1, waveTable_isSome _ (clampWaveform_le w1) p⟩,
   ⟨clampWaveform_le w2, waveTable_isSome _ (clampWaveform_le w2) p⟩,
   ⟨clampWaveform_le w3, waveTable_isSome _ (clampWaveform_le w3) p⟩⟩

/-- C7: `startNote` computes the voice's base frequency from the MIDI note
number, resets the phase and frequency of all three oscillators (applying each
oscillator's own octave, semitone and on-off flag), triggers `noteOn()` on all
three envelopes, and records the velocity as `keyLevel`. -/
theorem C7_startNote_effects (v : tinySynthVoice) (midiNoteNumber : ℤ)
    (velocity : ℚ) (pitchWheelPosition : ℤ) :
    (v.startNote midiNoteNumber velocity pitchWheelPosition).freq =
      midiToFreq midiNoteNumber ∧
    (v.startNote midiNoteNumber velocity pitchWheelPosition).keyLevel = velocity ∧
    (v.startNote midiNoteNumber velocity pitchWheelPosition).oscillator1.phase = 0 ∧
    (v.startNote midiNoteNumber velocity pitchWheelPosition).oscillator1.frequency =
      (if v.oscillator1.isOn then
        effectiveFrequency (midiToFreq midiNoteNumber) v.oscillator1.octave
          v.oscillator1.semitone
      else 0) ∧
    (v.startNote midiNoteNumber velocity pitchWheelPosition).oscillator2.phase = 0 ∧
    (v.startNote midiNoteNumber velocity pitchWheelPosition).oscillator2.frequency =
      (if v.oscillator2.isOn then
        effectiveFrequency (midiToFreq midiNoteNumber) v.oscillator2.octave
          v.oscillator2.semitone
      else 0) ∧
    (v.startNote midiNoteNumber velocity pitchWheelPosition).oscillator3.phase = 0 ∧
    (v.startNote midiNoteNumber velocity pitchWheelPosition).oscillator3.frequency =
      (if v.oscillator3.isOn then
        effectiveFrequency (midiToFreq midiNoteNumber) v.oscillator3.octave
          v.oscillator3.semitone
      else 0) ∧
    (v.startNote midiNoteNumber velocity pitchWheelPosition).envelope1.stage =
      Stage.Attack ∧
    (v.startNote midiNoteNumber velocity pitchWheelPosition).envelope2.stage =
      Stage.Attack ∧
    (v.startNote midiNoteNumber velocity pitchWheelPosition).envelope3.stage =
      Stage.Attack :=
  ⟨rfl, rfl, rfl, rfl, rfl, rfl, rfl, rfl, rfl, rfl, rfl⟩

/-- C2: `stopNote(false)` forces all three envelopes to Idle, zeroes the
voice's output level, and the very next sample the voice renders adds exactly
zero: a one-sample `renderNextBlock` leaves every buffer cell unchanged. -/
theorem C2_hard_stop_silences (v : tinySynthVoice) (buf : ℕ → ℕ → ℚ)
    (startSample ch i : ℕ) :
    (v.stopNote false).envelope1.stage = Stage.Idle ∧
    (v.stopNote false).envelope2.stage = Stage.Idle ∧
    (v.stopNote false).envelope3.stage = Stage.Idle ∧
    (v.stopNote false).keyLevel = 0 ∧
    ((v.stopNote false).stepVoice).2 = 0 ∧
    ((v.stopNote false).renderNextBlock buf startSample 1).2 ch i = buf ch i := by
  refine ⟨rfl, rfl, rfl, rfl, ?_, ?_⟩
  · simp [tinySynthVoice.stopNote, tinySynthVoice.stepVoice, idleADSR, ADSR.isFinished]
  · show (tinySynthVoice.renderNextBlock _ _ _ 1).2 ch i = buf ch i
    simp only [tinySynthVoice.renderNextBlock]
    have hz : ((v.stopNote false).stepVoice).2 = 0 := by
      simp [tinySynthVoice.stopNote, tinySynthVoice.stepVoice, idleADSR, ADSR.isFinished]
    rw [hz]
    by_cases h : i = startSample <;> simp [h]

/-- Rendering one more sample first shifts the sample stream: the state after
`n + 1` steps is the state after `n` steps of the stepped voice. -/
theorem voiceAfter_succ_shift (v : tinySynthVoice) (n : ℕ) :
    v.voiceAfter (n + 1) = (v.stepVoice.1).voiceAfter n := by
  induction n with
  | zero => rfl
  | succ n ih =>
      show (v.voiceAfter (n + 1)).stepVoice.1 = _
      rw [ih]
      rfl

/-- The sample stream of a stepped voice is the tail of the original stream. -/
theorem sampleAt_succ_shift (v : tinySynthVoice) (n : ℕ) :
    v.sampleAt (n + 1) = (v.stepVoice.1).sampleAt n := by
  unfold tinySynthVoice.sampleAt
  rw [voiceAfter_succ_shift]

/-- Full characterisation of `renderNextBlock`: positions inside
`[startSample, startSample + numSamples)` receive their prior content plus the
voice's sample for that position, on every channel; all other positions are
unchanged. -/
theorem renderNextBlock_spec (n : ℕ) :
    ∀ (v : tinySynthVoice) (buf : ℕ → ℕ → ℚ) (s ch i : ℕ),
      ((v.renderNextBlock buf s n).2) ch i =
        if s ≤ i ∧ i < s + n then buf ch i + v.sampleAt (i - s) else buf ch i := by
  induction n with
  | zero =>
      intro v buf s ch i
      rw [if_neg (by omega)]
      rfl
  | succ n ih =>
      intro v buf s ch i
      show ((tinySynthVoice.renderNextBlock _ _ _ n).2) ch i = _
      rw [ih]
      by_cases h1 : i = s
      · subst h1
        rw [if_neg (by omega), if_pos (by omega), if_pos (by omega), Nat.sub_self]
        rfl
      · by_cases h2 : s + 1 ≤ i ∧ i < s + 1 + n
        · rw [if_pos h2, if_neg h1, if_pos (by omega)]
          have hi : i - s = (i - (s + 1)) + 1 := by omega
          rw [hi, sampleAt_succ_shift]
        · rw [if_neg h2, if_neg h1, if_neg (by omega)]

/-- C3: `renderNextBlock(buffer, startSample, numSamples)` additively mixes the
voice's computed sample into every channel at each position of
`[startSample, startSample + numSamples)` and leaves every other buffer
position, on every channel, unchanged. -/
theorem C3_renderNextBlock_additive_mix (v : tinySynthVoice) (buf : ℕ → ℕ → ℚ)
    (startSample numSamples ch i : ℕ) :
    ((v.renderNextBlock buf startSample numSamples).2) ch i =
      if startSample ≤ i ∧ i < startSample + numSamples then
        buf ch i + v.sampleAt (i - startSample)
      else buf ch i :=
  renderNextBlock_spec numSamples v buf startSample ch i

/-- C6: whenever the oscillator's running phase is in `[0, 1)`, it stays in
`[0, 1)` after every number of `nextSample` phase advances: each advance adds
`frequency / sampleRate` and wraps modulo one cycle, so the accumulator never
drifts outside the interval. -/
theorem C6_phase_stays_in_unit_interval (o : tinySynthOscillator)
    (h0 : 0 ≤ o.phase) (h1 : o.phase < 1) (n : ℕ) :
    0 ≤ (o.advanceN n).phase ∧ (o.advanceN n).phase < 1 := by
  induction n with
  | zero => exact ⟨h0, h1⟩
  | succ n _ =>
      show 0 ≤ ((o.advanceN n).advance).phase ∧ ((o.advanceN n).advance).phase < 1
      unfold tinySynthOscillator.advance
      exact ⟨Int.fract_nonneg _, Int.fract_lt_one _⟩

/-- Witness for C6 at a concrete oscillator (sine, 440 Hz at 44100 Hz, phase
0): the phase stays in `[0, 1)` for every number of advances. -/
theorem C6_phase_stays_in_unit_interval_witness :
    0 ≤ ((tinySynthOscillator.mk 0 0 0 1 440 44100 0 true).advanceN 5).phase ∧
    ((tinySynthOscillator.mk 0 0 0 1 440 44100 0 true).advanceN 5).phase < 1 :=
  C6_phase_stays_in_unit_interval (tinySynthOscillator.mk 0 0 0 1 440 44100 0 true)
    (by decide) (by decide) 5

/-- The clamped cutoff lies in the stable range `[20, 20000]`. -/
theorem clampCutoff_mem (c : ℚ) : 20 ≤ clampCutoff c ∧ clampCutoff c ≤ 20000 := by
  unfold clampCutoff
  constructor
  · exact le_min (le_trans (by norm_num) (le_max_right c 20)) (by norm_num)
  · exact min_le_right _ _

/-- The clamped resonance lies in the stable range `[0, 99/100]`. -/
theorem clampResonance_mem (r : ℚ) :
    0 ≤ clampResonance r ∧ clampResonance r ≤ 99 / 100 := by
  unfold clampResonance
  constructor
  · exact le_min (le_trans (by norm_num) (le_max_right r 0)) (by norm_num)
  · exact min_le_right _ _

/-- One step of the recursive stage keeps the state under the bound
`max |current| (100·M)` when the inputs are bounded by `M`. -/
theorem process_state_bound (f : tinySynthFilter) (x M C : ℚ)
    (hx : |x| ≤ M) (hC : |f.state| ≤ C) (hMC : 100 * M ≤ C) :
    |((f.process x).2).state| ≤ C := by
  have hM0 : 0 ≤ M := le_trans (abs_nonneg x) hx
  have hg := clampCutoff_mem f.cutoff
  have hfb := clampResonance_mem f.resonance
  show |clampCutoff f.cutoff / 20000 * x + clampResonance f.resonance * f.state| ≤ C
  have h1 : |clampCutoff f.cutoff / 20000 * x| ≤ M := by
    rw [abs_mul]
    have hgle : |clampCutoff f.cutoff / 20000| ≤ 1 := by
      rw [abs_of_nonneg (by linarith [hg.1] : (0:ℚ) ≤ clampCutoff f.cutoff / 20000)]
      linarith [hg.2]
    calc |clampCutoff f.cutoff / 20000| * |x| ≤ 1 * |x| :=
          mul_le_mul_of_nonneg_right hgle (abs_nonneg x)
      _ = |x| := one_mul _
      _ ≤ M := hx
  have h2 : |clampResonance f.resonance * f.state| ≤ 99 / 100 * C := by
    rw [abs_mul, abs_of_nonneg hfb.1]
    exact mul_le_mul hfb.2 hC (abs_nonneg _) (by norm_num)
  have h3 := abs_add (clampCutoff f.cutoff / 20000 * x)
    (clampResonance f.resonance * f.state)
  linarith

/-- C4: for every cutoff and resonance value (in particular every value within
the declared parameter range) and every input sequence bounded by `M`, the
recursive stage of the filter never diverges: after any number of `process()`
calls (so in particular over 10,000 consecutive calls) the internal state —
which is also the most recent output — stays below the fixed bound
`max |initial state| (100·M)`, because cutoff and resonance are clamped to a
stable range before reaching the recursion. -/
theorem C4_filter_output_bounded (c r s0 : ℚ) (xs : ℕ → ℚ) (M : ℚ)
    (hxs : ∀ i, |xs i| ≤ M) (n : ℕ) :
    |((tinySynthFilter.mk c r s0).processN xs n).state| ≤ max |s0| (100 * M) := by
  induction n with
  | zero => exact le_max_left _ _
  | succ n ih =>
      show |((((tinySynthFilter.mk c r s0).processN xs n).process (xs n)).2).state| ≤ _
      exact process_state_bound _ _ _ _ (hxs n) ih (le_max_right _ _)

/-- Witness for C4 at a concrete filter (cutoff 1000, resonance 1/2, zero
state) and the constant input sequence 1 bounded by 1. -/
theorem C4_filter_output_bounded_witness :
    |((tinySynthFilter.mk 1000 (1 / 2) 0).processN (fun _ => 1) 3).state| ≤
      max |(0 : ℚ)| (100 * 1) :=
  C4_filter_output_bounded 1000 (1 / 2) 0 (fun _ => 1) 1 (by intro i; norm_num) 3

/-! ### ADSR single-step lemmas -/

/-- Attack step below the target: the level ramps up and the stage stays. -/
theorem tick_attack_lt (e : ADSR) (he : e.stage = Stage.Attack)
    (h : e.level + e.attackRate < 1) :
    e.tick = { e with level := e.level + e.attackRate } := by
  obtain ⟨st, lv, ra, rd, sv, rr⟩ := e
  simp only at he h ⊢
  subst he
  simp only [ADSR.tick]
  rw [if_neg (not_le.mpr h)]

/-- Attack step reaching the target: the level caps at 1 and Decay begins. -/
theorem tick_attack_ge (e : ADSR) (he : e.stage = Stage.Attack)
    (h : 1 ≤ e.level + e.attackRate) :
    e.tick = { e with stage := Stage.Decay, level := 1 } := by
  obtain ⟨st, lv, ra, rd, sv, rr⟩ := e
  simp only at he h ⊢
  subst he
  simp only [ADSR.tick]
  rw [if_pos h]

/-- Decay step above the sustain level: the level ramps down, stage stays. -/
theorem tick_decay_gt (e : ADSR) (he : e.stage = Stage.Decay)
    (h : e.sustainLevel < e.level - e.decayRate) :
    e.tick = { e with level := e.level - e.decayRate } := by
  obtain ⟨st, lv, ra, rd, sv, rr⟩ := e
  simp only at he h ⊢
  subst he
  simp only [ADSR.tick]
  rw [if_neg (not_le.mpr h)]

/-- Decay step reaching the sustain level: the level settles and Sustain begins. -/
theorem tick_decay_le (e : ADSR) (he : e.stage = Stage.Decay)
    (h : e.level - e.decayRate ≤ e.sustainLevel) :
    e.tick = { e with stage := Stage.Sustain, level := e.sustainLevel } := by
  obtain ⟨st, lv, ra, rd, sv, rr⟩ := e
  simp only at he h ⊢
  subst he
  simp only [ADSR.tick]
  rw [if_pos h]

/-- Sustain holds its state. -/
theorem tick_sustain (e : ADSR) (he : e.stage = Stage.Sustain) : e.tick = e := by
  obtain ⟨st, lv, ra, rd, sv, rr⟩ := e
  simp only at he ⊢
  subst he
  simp only [ADSR.tick]

/-- Release step above zero: the level ramps down, stage stays. -/
theorem tick_release_gt (e : ADSR) (he : e.stage = Stage.Release)
    (h : 0 < e.level - e.releaseRate) :
    e.tick = { e with level := e.level - e.releaseRate } := by
  obtain ⟨st, lv, ra, rd, sv, rr⟩ := e
  simp only at he h ⊢
  subst he
  simp only [ADSR.tick]
  rw [if_neg (not_le.mpr h)]

/-- Release step reaching zero: the level settles at 0 and Idle begins. -/
theorem tick_release_le (e : ADSR) (he : e.stage = Stage.Release)
    (h : e.level - e.releaseRate ≤ 0) :
    e.tick = { e with stage := Stage.Idle, level := 0 } := by
  obtain ⟨st, lv, ra, rd, sv, rr⟩ := e
  simp only at he h ⊢
  subst he
  simp only [ADSR.tick]
  rw [if_pos h]

/-- Idle holds its state. -/
theorem tick_idle (e : ADSR) (he : e.stage = Stage.Idle) : e.tick = e := by
  obtain ⟨st, lv, ra, rd, sv, rr⟩ := e
  simp only at he ⊢
  subst he
  simp only [ADSR.tick]

/-- Splitting an iterated tick. -/
theorem ADSR.tickN_add (e : ADSR) (m n : ℕ) :
    e.tickN (m + n) = (e.tickN m).tickN n := by
  induction n with
  | zero => rfl
  | succ n ih =>
      show (e.tickN (m + n)).tick = ((e.tickN m).tickN n).tick
      rw [ih]

/-- A Sustain-stage envelope is a fixed point of `tick`. -/
theorem sustain_fix (e : ADSR) (he : e.stage = Stage.Sustain) (k : ℕ) :
    e.tickN k = e := by
  induction k with
  | zero => rfl
  | succ k ih =>
      show (e.tickN k).tick = e
      rw [ih, tick_sustain e he]

/-- An Idle-stage envelope is a fixed point of `tick`. -/
theorem idle_fix (e : ADSR) (he : e.stage = Stage.Idle) (k : ℕ) :
    e.tickN k = e := by
  induction k with
  | zero => rfl
  | succ k ih =>
      show (e.tickN k).tick = e
      rw [ih, tick_idle e he]

/-! ### ADSR ramp-run lemmas -/

/-- While the attack ramp stays strictly below 1, `tickN` just accumulates the
attack rate into the level. -/
theorem tickN_attack (e : ADSR) (he : e.stage = Stage.Attack) (hr : 0 < e.attackRate)
    (k : ℕ) (hk : e.level + k * e.attackRate < 1) :
    e.tickN k = { e with level := e.level + k * e.attackRate } := by
  induction k with
  | zero => simp [ADSR.tickN]
  | succ k ih =>
      have hk' : e.level + k * e.attackRate < 1 := by
        push_cast at hk ⊢
        linarith
      show (e.tickN k).tick = _
      rw [ih hk']
      have hstep := tick_attack_lt { e with level := e.level + (k : ℚ) * e.attackRate } he
        (by show e.level + (k : ℚ) * e.attackRate + e.attackRate < 1
            push_cast at hk ⊢
            linarith)
      rw [hstep]
      show ({ e with level := e.level + (k : ℚ) * e.attackRate + e.attackRate } : ADSR) = _
      congr 1
      push_cast
      ring

/-- While the decay ramp stays strictly above the sustain level, `tickN` just
subtracts the decay rate from the level. -/
theorem tickN_decay (e : ADSR) (he : e.stage = Stage.Decay) (hr : 0 < e.decayRate)
    (k : ℕ) (hk : e.sustainLevel < e.level - k * e.decayRate) :
    e.tickN k = { e with level := e.level - k * e.decayRate } := by
  induction k with
  | zero => simp [ADSR.tickN]
  | succ k ih =>
      have hk' : e.sustainLevel < e.level - k * e.decayRate := by
        push_cast at hk ⊢
        linarith
      show (e.tickN k).tick = _
      rw [ih hk']
      have hstep := tick_decay_gt { e with level := e.level - (k : ℚ) * e.decayRate } he
        (by show e.sustainLevel < e.level - (k : ℚ) * e.decayRate - e.decayRate
            push_cast at hk ⊢
            linarith)
      rw [hstep]
      show ({ e with level := e.level - (k : ℚ) * e.decayRate - e.decayRate } : ADSR) = _
      congr 1
      push_cast
      ring

/-- While the release ramp stays strictly above zero, `tickN` just subtracts
the release rate from the level. -/
theorem tickN_release (e : ADSR) (he : e.stage = Stage.Release) (hr : 0 < e.releaseRate)
    (k : ℕ) (hk : 0 < e.level - k * e.releaseRate) :
    e.tickN k = { e with level := e.level - k * e.releaseRate } := by
  induction k with
  | zero => simp [ADSR.tickN]
  | succ k ih =>
      have hk' : 0 < e.level - k * e.releaseRate := by
        push_cast at hk ⊢
        linarith
      show (e.tickN k).tick = _
      rw [ih hk']
      have hstep := tick_release_gt { e with level := e.level - (k : ℚ) * e.releaseRate } he
        (by show (0 : ℚ) < e.level - (k : ℚ) * e.releaseRate - e.releaseRate
            push_cast at hk ⊢
            linarith)
      rw [hstep]
      show ({ e with level := e.level - (k : ℚ) * e.releaseRate - e.releaseRate } : ADSR) = _
      congr 1
      push_cast
      ring

/-- An Attack-stage envelope with positive rate and level below 1 reaches Decay
(at level 1) after a positive number of ticks, staying in Attack before that. -/
theorem attack_run (e : ADSR) (he : e.stage = Stage.Attack) (hr : 0 < e.attackRate)
    (hl : e.level < 1) :
    ∃ a : ℕ, 0 < a ∧ (∀ k, k < a → (e.tickN k).stage = Stage.Attack) ∧
      e.tickN a = { e with stage := Stage.Decay, level := 1 } := by
  have hex : ∃ n : ℕ, 1 ≤ e.level + n * e.attackRate := by
    obtain ⟨n, hn⟩ := exists_nat_gt ((1 - e.level) / e.attackRate)
    refine ⟨n, ?_⟩
    rw [div_lt_iff₀ hr] at hn
    linarith
  have ha0 : 0 < Nat.find hex := by
    rw [Nat.find_pos]
    push_cast
    simp only [zero_mul, add_zero]
    exact not_le.mpr hl
  refine ⟨Nat.find hex, ha0, ?_, ?_⟩
  · intro k hk
    have hklt : e.level + k * e.attackRate < 1 := not_le.mp (Nat.find_min hex hk)
    rw [tickN_attack e he hr k hklt]
    exact he
  · obtain ⟨b, hb⟩ : ∃ b, Nat.find hex = b + 1 := ⟨Nat.find hex - 1, by omega⟩
    have hspec := Nat.find_spec hex
    rw [hb] at hspec
    have hblt : e.level + b * e.attackRate < 1 :=
      not_le.mp (Nat.find_min hex (by omega))
    rw [hb]
    show (e.tickN b).tick = _
    rw [tickN_attack e he hr b hblt]
    have hstep := tick_attack_ge { e with level := e.level + (b : ℚ) * e.attackRate } he
      (by show (1 : ℚ) ≤ e.level + (b : ℚ) * e.attackRate + e.attackRate
          push_cast at hspec ⊢
          linarith)
    rw [hstep]

/-- A Decay-stage envelope with positive rate and level above the sustain level
reaches Sustain (at the sustain level) after a positive number of ticks,
staying in Decay before that. -/
theorem decay_run (e : ADSR) (he : e.stage = Stage.Decay) (hr : 0 < e.decayRate)
    (hl : e.sustainLevel < e.level) :
    ∃ d : ℕ, 0 < d ∧ (∀ k, k < d → (e.tickN k).stage = Stage.Decay) ∧
      e.tickN d = { e with stage := Stage.Sustain, level := e.sustainLevel } := by
  have hex : ∃ n : ℕ, e.level - n * e.decayRate ≤ e.sustainLevel := by
    obtain ⟨n, hn⟩ := exists_nat_gt ((e.level - e.sustainLevel) / e.decayRate)
    refine ⟨n, ?_⟩
    rw [div_lt_iff₀ hr] at hn
    linarith
  have hd0 : 0 < Nat.find hex := by
    rw [Nat.find_pos]
    push_cast
    simp only [zero_mul, sub_zero]
    exact not_le.mpr hl
  refine ⟨Nat.find hex, hd0, ?_, ?_⟩
  · intro k hk
    have hkgt : e.sustainLevel < e.level - k * e.decayRate :=
      not_le.mp (Nat.find_min hex hk)
    rw [tickN_decay e he hr k hkgt]
    exact he
  · obtain ⟨b, hb⟩ : ∃ b, Nat.find hex = b + 1 := ⟨Nat.find hex - 1, by omega⟩
    have hspec := Nat.find_spec hex
    rw [hb] at hspec
    have hbgt : e.sustainLevel < e.level - b * e.decayRate :=
      not_le.mp (Nat.find_min hex (by omega))
    rw [hb]
    show (e.tickN b).tick = _
    rw [tickN_decay e he hr b hbgt]
    have hstep := tick_decay_le { e with level := e.level - (b : ℚ) * e.decayRate } he
      (by show e.level - (b : ℚ) * e.decayRate - e.decayRate ≤ e.sustainLevel
          push_cast at hspec ⊢
          linarith)
    rw [hstep]

/-- A Release-stage envelope with positive rate and positive level reaches Idle
(at level 0) after a positive number of ticks, staying in Release before
that. -/
theorem release_run (e : ADSR) (he : e.stage = Stage.Release) (hr : 0 < e.releaseRate)
    (hl : 0 < e.level) :
    ∃ r : ℕ, 0 < r ∧ (∀ k, k < r → (e.tickN k).stage = Stage.Release) ∧
      e.tickN r = { e with stage := Stage.Idle, level := 0 } := by
  have hex : ∃ n : ℕ, e.level - n * e.releaseRate ≤ 0 := by
    obtain ⟨n, hn⟩ := exists_nat_gt (e.level / e.releaseRate)
    refine ⟨n, ?_⟩
    rw [div_lt_iff₀ hr] at hn
    linarith
  have hr0 : 0 < Nat.find hex := by
    rw [Nat.find_pos]
    push_cast
    simp only [zero_mul, sub_zero]
    exact not_le.mpr hl
  refine ⟨Nat.find hex, hr0, ?_, ?_⟩
  · intro k hk
    have hkgt : 0 < e.level - k * e.releaseRate := not_le.mp (Nat.find_min hex hk)
    rw [tickN_release e he hr k hkgt]
    exact he
  · obtain ⟨b, hb⟩ : ∃ b, Nat.find hex = b + 1 := ⟨Nat.find hex - 1, by omega⟩
    have hspec := Nat.find_spec hex
    rw [hb] at hspec
    have hbgt : 0 < e.level - b * e.releaseRate :=
      not_le.mp (Nat.find_min hex (by omega))
    rw [hb]
    show (e.tickN b).tick = _
    rw [tickN_release e he hr b hbgt]
    have hstep := tick_release_le { e with level := e.level - (b : ℚ) * e.releaseRate } he
      (by show e.level - (b : ℚ) * e.releaseRate - e.releaseRate ≤ 0
          push_cast at hspec ⊢
          linarith)
    rw [hstep]

/-- `noteOff()` on a Sustain-stage envelope moves it to Release. -/
theorem noteOff_sustain (e : ADSR) (he : e.stage = Stage.Sustain) :
    e.noteOff = { e with stage := Stage.Release } := by
  obtain ⟨st, lv, ra, rd, sv, rr⟩ := e
  simp only at he ⊢
  subst he
  simp only [ADSR.noteOff]

/-- After `noteOff()` from Sustain, the envelope plays a positive-length
Release (never finished during it) and then stays Idle (finished) forever. -/
theorem sustain_noteOff_run (e : ADSR) (he : e.stage = Stage.Sustain)
    (hrr : 0 < e.releaseRate) (hl : 0 < e.level) :
    (e.noteOff).stage = Stage.Release ∧
    ∃ r : ℕ, 0 < r ∧
      (∀ k, k < r → ((e.noteOff).tickN k).stage = Stage.Release ∧
        ((e.noteOff).tickN k).isFinished = false) ∧
      (∀ k, r ≤ k → ((e.noteOff).tickN k).stage = Stage.Idle ∧
        ((e.noteOff).tickN k).isFinished = true) := by
  have hOff := noteOff_sustain e he
  obtain ⟨r, hr0, hRel, hrE⟩ := release_run (e.noteOff)
    (by rw [hOff]) (by rw [hOff]; exact hrr) (by rw [hOff]; exact hl)
  refine ⟨by rw [hOff], r, hr0, ?_, ?_⟩
  · intro k hk
    exact ⟨hRel k hk, by simp [ADSR.isFinished, hRel k hk]⟩
  · intro k hk
    obtain ⟨j, rfl⟩ : ∃ j, k = r + j := ⟨k - r, by omega⟩
    have hIdle : (e.noteOff).tickN (r + j) =
        { e.noteOff with stage := Stage.Idle, level := 0 } := by
      rw [ADSR.tickN_add, hrE]
      exact idle_fix _ rfl j
    rw [hIdle]
    exact ⟨rfl, rfl⟩

/-- C1: an envelope with positive ramp rates and a sustain level strictly
between 0 and 1, driven by `noteOn()` and then by `noteOff()` at any point
after Sustain has been reached, visits exactly the stage sequence
Attack → Decay → Sustain → Release → Idle — the ticks `[0, a)` are Attack,
`[a, a + d)` are Decay, `[a + d, ∞)` are Sustain until `noteOff()`, after
which `[0, r)` are Release and `[r, ∞)` are Idle — and `isFinished()` is
false at every tick before the final Idle and true from then on. -/
theorem C1_envelope_stage_sequence (ra rd s rr : ℚ)
    (hra : 0 < ra) (hrd : 0 < rd) (hs0 : 0 < s) (hs1 : s < 1) (hrr : 0 < rr) :
    ∃ a d : ℕ, 0 < a ∧ 0 < d ∧
      (∀ k, k < a → (((adsrInit ra rd s rr).noteOn).tickN k).stage = Stage.Attack) ∧
      (∀ k, a ≤ k → k < a + d →
        (((adsrInit ra rd s rr).noteOn).tickN k).stage = Stage.Decay) ∧
      (∀ k, a + d ≤ k →
        (((adsrInit ra rd s rr).noteOn).tickN k).stage = Stage.Sustain) ∧
      (∀ k, (((adsrInit ra rd s rr).noteOn).tickN k).isFinished = false) ∧
      (∀ m, a + d ≤ m →
        ((((adsrInit ra rd s rr).noteOn).tickN m).noteOff).stage = Stage.Release ∧
        ∃ r : ℕ, 0 < r ∧
          (∀ k, k < r →
            (((((adsrInit ra rd s rr).noteOn).tickN m).noteOff).tickN k).stage =
              Stage.Release ∧
            (((((adsrInit ra rd s rr).noteOn).tickN m).noteOff).tickN k).isFinished =
              false) ∧
          (∀ k, r ≤ k →
            (((((adsrInit ra rd s rr).noteOn).tickN m).noteOff).tickN k).stage =
              Stage.Idle ∧
            (((((adsrInit ra rd s rr).noteOn).tickN m).noteOff).tickN k).isFinished =
              true)) := by
  have main : ∀ e : ADSR, e.stage = Stage.Attack → e.level < 1 → 0 < e.attackRate →
      0 < e.decayRate → 0 < e.sustainLevel → e.sustainLevel < 1 → 0 < e.releaseRate →
      ∃ a d : ℕ, 0 < a ∧ 0 < d ∧
        (∀ k, k < a → (e.tickN k).stage = Stage.Attack) ∧
        (∀ k, a ≤ k → k < a + d → (e.tickN k).stage = Stage.Decay) ∧
        (∀ k, a + d ≤ k → (e.tickN k).stage = Stage.Sustain) ∧
        (∀ k, (e.tickN k).isFinished = false) ∧
        (∀ m, a + d ≤ m →
          ((e.tickN m).noteOff).stage = Stage.Release ∧
          ∃ r : ℕ, 0 < r ∧
            (∀ k, k < r → (((e.tickN m).noteOff).tickN k).stage = Stage.Release ∧
              (((e.tickN m).noteOff).tickN k).isFinished = false) ∧
            (∀ k, r ≤ k → (((e.tickN m).noteOff).tickN k).stage = Stage.Idle ∧
              (((e.tickN m).noteOff).tickN k).isFinished = true)) := by
    intro e he hl hra' hrd' hs0' hs1' hrr'
    obtain ⟨a, ha0, hAtt, haE⟩ := attack_run e he hra' hl
    obtain ⟨d, hd0, hDecA, hdE⟩ :=
      decay_run { e with stage := Stage.Decay, level := 1 } rfl hrd' hs1'
    have hDec : ∀ k, a ≤ k → k < a + d → (e.tickN k).stage = Stage.Decay := by
      intro k h1 h2
      obtain ⟨j, rfl⟩ : ∃ j, k = a + j := ⟨k - a, by omega⟩
      rw [ADSR.tickN_add, haE]
      exact hDecA j (by omega)
    have hSusEq : ∀ m, a + d ≤ m →
        e.tickN m = { e with stage := Stage.Sustain, level := e.sustainLevel } := by
      intro m hm
      obtain ⟨j, rfl⟩ : ∃ j, m = (a + d) + j := ⟨m - (a + d), by omega⟩
      rw [ADSR.tickN_add, ADSR.tickN_add, haE, hdE]
      exact (sustain_fix _ rfl j).trans rfl
    have hSus : ∀ k, a + d ≤ k → (e.tickN k).stage = Stage.Sustain := by
      intro k hk
      rw [hSusEq k hk]
    have hFin : ∀ k, (e.tickN k).isFinished = false := by
      intro k
      rcases lt_or_ge k a with h | h
      · simp [ADSR.isFinished, hAtt k h]
      · rcases lt_or_ge k (a + d) with h2 | h2
        · simp [ADSR.isFinished, hDec k h h2]
        · simp [ADSR.isFinished, hSus k h2]
    refine ⟨a, d, ha0, hd0, hAtt, hDec, hSus, hFin, ?_⟩
    intro m hm
    rw [hSusEq m hm]
    exact sustain_noteOff_run { e with stage := Stage.Sustain, level := e.sustainLevel }
      rfl hrr' hs0'
  exact main ((adsrInit ra rd s rr).noteOn) rfl (show (0 : ℚ) < 1 by norm_num)
    hra hrd hs0 hs1 hrr

/-- Witness for C1 at concrete rates (attack 1, decay 1, sustain 1/2,
release 1 per tick). -/
theorem C1_envelope_stage_sequence_witness :
    ∃ a d : ℕ, 0 < a ∧ 0 < d ∧
      (∀ k, k < a →
        (((adsrInit 1 1 (1 / 2) 1).noteOn).tickN k).stage = Stage.Attack) ∧
      (∀ k, a ≤ k → k < a + d →
        (((adsrInit 1 1 (1 / 2) 1).noteOn).tickN k).stage = Stage.Decay) ∧
      (∀ k, a + d ≤ k →
        (((adsrInit 1 1 (1 / 2) 1).noteOn).tickN k).stage = Stage.Sustain) ∧
      (∀ k, (((adsrInit 1 1 (1 / 2) 1).noteOn).tickN k).isFinished = false) ∧
      (∀ m, a + d ≤ m →
        ((((adsrInit 1 1 (1 / 2) 1).noteOn).tickN m).noteOff).stage = Stage.Release ∧
        ∃ r : ℕ, 0 < r ∧
          (∀ k, k < r →
            (((((adsrInit 1 1 (1 / 2) 1).noteOn).tickN m).noteOff).tickN k).stage =
              Stage.Release ∧
            (((((adsrInit 1 1 (1 / 2) 1).noteOn).tickN m).noteOff).tickN k).isFinished =
              false) ∧
          (∀ k, r ≤ k →
            (((((adsrInit 1 1 (1 / 2) 1).noteOn).tickN m).noteOff).tickN k).stage =
              Stage.Idle ∧
            (((((adsrInit 1 1 (1 / 2) 1).noteOn).tickN m).noteOff).tickN k).isFinished =
              true)) :=
  C1_envelope_stage_sequence 1 1 (1 / 2) 1 (by norm_num) (by norm_num) (by norm_num)
    (by norm_num) (by norm_num)

/-- C5: a zero stage duration never divides: the rate conversion maps duration
0 to the unit ramp rate 1, and the zero-length stage is crossed on the very
same tick — with attack time 0 the first `tick()` after `noteOn()` already
returns level 1.0 (entering Decay), with decay time 0 a single tick of Decay
reaches Sustain, and with release time 0 a single tick of Release reaches Idle
at level 0. -/
theorem C5_zero_duration_instantaneous (e : ADSR) (sampleRate : ℚ)
    (h0 : 0 ≤ e.level) (h1 : e.level ≤ 1) (hs : 0 ≤ e.sustainLevel) :
    stageRate 0 sampleRate = 1 ∧
    (((e.setAttackTime 0 sampleRate).noteOn).tick).level = 1 ∧
    (((e.setAttackTime 0 sampleRate).noteOn).tick).stage = Stage.Decay ∧
    (({ e.setDecayTime 0 sampleRate with stage := Stage.Decay } : ADSR).tick).stage =
      Stage.Sustain ∧
    (({ e.setReleaseTime 0 sampleRate with stage := Stage.Release } : ADSR).tick).stage =
      Stage.Idle ∧
    (({ e.setReleaseTime 0 sampleRate with stage := Stage.Release } : ADSR).tick).level =
      0 := by
  have hrate : stageRate 0 sampleRate = 1 := by
    unfold stageRate
    exact if_pos (Or.inl le_rfl)
  have hA := tick_attack_ge ((e.setAttackTime 0 sampleRate).noteOn) rfl
    (by show (1 : ℚ) ≤ e.level + stageRate 0 sampleRate
        rw [hrate]
        linarith)
  have hD := tick_decay_le ({ e.setDecayTime 0 sampleRate with stage := Stage.Decay } : ADSR)
    rfl
    (by show e.level - stageRate 0 sampleRate ≤ e.sustainLevel
        rw [hrate]
        linarith)
  have hR := tick_release_le
    ({ e.setReleaseTime 0 sampleRate with stage := Stage.Release } : ADSR) rfl
    (by show e.level - stageRate 0 sampleRate ≤ 0
        rw [hrate]
        linarith)
  refine ⟨hrate, ?_, ?_, ?_, ?_, ?_⟩
  · rw [hA]
  · rw [hA]
  · rw [hD]
  · rw [hR]
  · rw [hR]

/-- Witness for C5 at a concrete envelope (idle, level 0, sustain 1/2) and
sample rate 44100. -/
theorem C5_zero_duration_instantaneous_witness :
    stageRate 0 44100 = 1 ∧
    ((((adsrInit 1 1 (1 / 2) 1).setAttackTime 0 44100).noteOn).tick).level = 1 ∧
    ((((adsrInit 1 1 (1 / 2) 1).setAttackTime 0 44100).noteOn).tick).stage =
      Stage.Decay ∧
    (({ (adsrInit 1 1 (1 / 2) 1).setDecayTime 0 44100 with
        stage := Stage.Decay } : ADSR).tick).stage = Stage.Sustain ∧
    (({ (adsrInit 1 1 (1 / 2) 1).setReleaseTime 0 44100 with
        stage := Stage.Release } : ADSR).tick).stage = Stage.Idle ∧
    (({ (adsrInit 1 1 (1 / 2) 1).setReleaseTime 0 44100 with
        stage := Stage.Release } : ADSR).tick).level = 0 :=
  C5_zero_duration_instantaneous (adsrInit 1 1 (1 / 2) 1) 44100
    (by show (0 : ℚ) ≤ 0; norm_num) (by show (0 : ℚ) ≤ 1; norm_num)
    (by show (0 : ℚ) ≤ 1 / 2; norm_num)
